import Mathlib

/-!
A shallow embedding of the croner source (src/croner.js): the pattern
compiler (`CronPattern`), the broken-down-time advancer (`CronDate`), and
the schedule layer (`Cron.next` / `Cron._next` / `validateOpts`).

Modelling conventions:
* JS strings are `List Char` (with `String` wrappers at the API surface).
* JS `Date` values are integer epoch-millisecond timestamps (`Int`); the
  host clock is modelled as UTC with no DST, so `new Date(y, m, d, ...)`
  is plain proleptic-Gregorian arithmetic.
* The field arrays of `CronPattern` are JS arrays of 0/1; the source can
  write at index `-1` (an object property in JS, not an array element),
  so an array is modelled as a `neg1` flag plus the element list.  A JS
  write at index `NaN` (from `parseInt("")`) touches no integer slot and
  is a no-op on this model.
* `throw` is `Except.error`; the unbounded `while` loops of the advancer
  take explicit fuel and return `none` on exhaustion.
-/

namespace Croner

/-- JS whitespace (the characters matched by `\s` that can occur here). -/
def isJsSpace (c : Char) : Bool :=
  c = ' ' || c = '\t' || c = '\n' || c = '\r' || c = '\x0b' || c = '\x0c' || c = ' '

/-- JS `String.prototype.trim`. -/
def jsTrim (l : List Char) : List Char :=
  ((l.dropWhile isJsSpace).reverse.dropWhile isJsSpace).reverse

/-- JS `str.replace(/\s+/g, " ")`: each run of whitespace becomes one space. -/
def collapseWs : List Char → List Char
  | [] => []
  | [c] => if isJsSpace c then [' '] else [c]
  | c1 :: c2 :: rest =>
    if isJsSpace c1 && isJsSpace c2 then collapseWs (c2 :: rest)
    else (if isJsSpace c1 then ' ' else c1) :: collapseWs (c2 :: rest)

/-- JS `str.split(sep)` for a single-character separator. -/
def splitOnChar (sep : Char) : List Char → List (List Char)
  | [] => [[]]
  | c :: rest =>
    if c = sep then [] :: splitOnChar sep rest
    else
      match splitOnChar sep rest with
      | h :: t => (c :: h) :: t
      | [] => [[c]]

/-- Value of a non-empty digit string. -/
def digitsVal (l : List Char) : Nat :=
  l.foldl (fun n c => 10 * n + (c.toNat - '0'.toNat)) 0

/-- JS `parseInt(s, 10)`: skip whitespace, optional sign, maximal digit
prefix; `none` models `NaN`. -/
def parseIntJS (s : List Char) : Option Int :=
  let s := s.dropWhile isJsSpace
  let core : List Char → Option Int := fun t =>
    let ds := t.takeWhile Char.isDigit
    if ds.isEmpty then none else some (digitsVal ds : Int)
  match s with
  | '-' :: rest => (core rest).map (fun n => -n)
  | '+' :: rest => core rest
  | _ => core s

/-- A JS array of 0/1 flags, together with the `-1` property the source can
create by writing at index `-1`. -/
structure JSArr where
  neg1 : Bool
  elems : List Bool
deriving DecidableEq, Repr, Inhabited

/-- Read `a[i]` (a JS falsy read for any index that holds no 1). -/
def JSArr.read (a : JSArr) (i : Int) : Bool :=
  if 0 ≤ i then a.elems.getD i.toNat false
  else if i = -1 then a.neg1
  else false

/-- Write `a[i] = 1`. -/
def JSArr.write (a : JSArr) (i : Int) : JSArr :=
  if i = -1 then { a with neg1 := true }
  else if 0 ≤ i ∧ i < (a.elems.length : Int) then
    { a with elems := a.elems.set i.toNat true }
  else a

/-- The wildcard fill loop (`for(i=0;i<arr.length;i++) arr[i]=1`). -/
def JSArr.fillAll (a : JSArr) : JSArr :=
  { a with elems := List.replicate a.elems.length true }

/-- A fresh all-zero field array of the given length. -/
def JSArr.mk0 (n : Nat) : JSArr := ⟨false, List.replicate n false⟩

/-- `raise` of the source: throws `TypeError("Cron parser: " + err)`. -/
def raiseE {α : Type} (msg : String) : Except String α :=
  .error ("Cron parser: " ++ msg)

/-- The range write loop: `for(i=lower;i<=upper;i++) arr[i+off]=1`,
expressed with the iteration count `k = upper - lower + 1`. -/
def writeRangeAux (arr : JSArr) (i off : Int) : Nat → JSArr
  | 0 => arr
  | k + 1 => writeRangeAux (arr.write (i + off)) (i + 1) off k

/-- The step write loop: `for(i=0;i<arr.length;i+=steps) arr[i+off]=1`,
with fuel bounding the iteration count. -/
def writeStepsAux (arr : JSArr) (i steps off : Int) : Nat → JSArr
  | 0 => arr
  | k + 1 =>
    if i < (arr.elems.length : Int) then
      writeStepsAux ((arr.write (i + off))) (i + steps) steps off k
    else arr

def ofChars (l : List Char) : String := String.mk l

/-- One comma-free, non-`*` atom of a field (range / step / number branch
of `partToArray`). -/
def atomToArray (typeName : String) (arr : JSArr) (conf : List Char) (off : Int) :
    Except String JSArr :=
  if conf.contains '-' then
    match splitOnChar '-' conf with
    | [s0, s1] =>
      match parseIntJS s0 with
      | none => raiseE "Syntax error, illegal lower range (NaN)"
      | some l0 =>
        match parseIntJS s1 with
        | none => raiseE "Syntax error, illegal upper range (NaN)"
        | some u0 =>
          let lower := l0 + off
          let upper := u0 + off
          if lower < 0 || (arr.elems.length : Int) ≤ upper then
            raiseE ("Value out of range: '" ++ ofChars conf ++ "'")
          else if upper < lower then
            raiseE ("From value is larger than to value: '" ++ ofChars conf ++ "'")
          else
            .ok (writeRangeAux arr lower off (upper - lower + 1).toNat)
    | _ => raiseE ("Syntax error, illegal range: '" ++ ofChars conf ++ "'")
  else if conf.contains '/' then
    match splitOnChar '/' conf with
    | [s0, s1] =>
      if s0 ≠ ['*'] then
        raiseE ("Syntax error, left part of / needs to be * : '" ++ ofChars conf ++ "'")
      else
        match parseIntJS s1 with
        | none => raiseE "Syntax error, illegal stepping: (NaN)"
        | some steps =>
          if steps = 0 then raiseE "Syntax error, illegal stepping: 0"
          else if (arr.elems.length : Int) < steps then
            raiseE ("Syntax error, steps cannot be greater than maximum value of part (" ++
              toString arr.elems.length ++ ")")
          else .ok (writeStepsAux arr 0 steps off arr.elems.length)
    | _ => raiseE ("Syntax error, illegal stepping: '" ++ ofChars conf ++ "'")
  else
    match parseIntJS conf with
    | none => .ok arr -- i = NaN: both range guards are false, arr[NaN]=1 touches no slot
    | some n =>
      let i := n + off
      if i < 0 || (arr.elems.length : Int) ≤ i then
        raiseE (typeName ++ " value out of range: '" ++ ofChars conf ++ "'")
      else .ok (arr.write i)

/-- One comma piece: the source recurses into `partToArray`, where a piece
is either the wildcard or (being comma-free) a single atom. -/
def partPiece (typeName : String) (arr : JSArr) (piece : List Char) (off : Int) :
    Except String JSArr :=
  if piece = ['*'] then .ok arr.fillAll else atomToArray typeName arr piece off

/-- `CronPattern.prototype.partToArray`. -/
def partToArray (typeName : String) (arr : JSArr) (conf : List Char) (off : Int) :
    Except String JSArr :=
  if conf = ['*'] then .ok arr.fillAll
  else
    let pieces := splitOnChar ',' conf
    if 1 < pieces.length then
      pieces.foldlM (fun a p => partPiece typeName a p off) arr
    else atomToArray typeName arr conf off

/-- The compiled acceptance arrays of a pattern. -/
structure CronPattern where
  seconds : JSArr
  minutes : JSArr
  hours : JSArr
  days : JSArr
  months : JSArr
  daysOfWeek : JSArr
deriving DecidableEq, Repr, Inhabited

/-- Legal characters of a field: the class `[/*0-9,-]` of `reValidCron`. -/
def legalChar (c : Char) : Bool :=
  c = '/' || c = '*' || c.isDigit || c = ',' || c = '-'

/-- The per-entry character check of `parse` (tests the trimmed part). -/
def checkLegal (idx : Nat) (p : List Char) : Except String Unit :=
  if (jsTrim p).any (fun c => !legalChar c) then
    raiseE ("configuration entry " ++ toString idx ++ " (" ++ ofChars (jsTrim p) ++
      ") contains illegal characters.")
  else .ok ()

/-- The validation loop `for(i=0;i<parts.length;i++)` over the entries. -/
def checkLegalList (idx : Nat) : List (List Char) → Except String Unit
  | [] => .ok ()
  | p :: rest =>
    match checkLegal idx p with
    | .error e => .error e
    | .ok _ => checkLegalList (idx + 1) rest

/-- `CronPattern.prototype.parse` after the whitespace split: field count
check, character checks, the month/date vs day-of-week incompatibility
check, the six `partToArray` calls, and the `daysOfWeek[7] -> [0]` fix. -/
def parseParts (orig : List Char) (parts : List (List Char)) :
    Except String CronPattern :=
  match parts with
  | [p0, p1, p2, p3, p4, p5] =>
    match checkLegalList 1 [p0, p1, p2, p3, p4, p5] with
    | .error e => .error e
    | .ok _ =>
    if p5 ≠ ['*'] ∧ (p4 ≠ ['*'] ∨ p3 ≠ ['*']) then
      raiseE "configuration invalid, you can not combine month/date with day of week."
    else do
      let seconds ← partToArray "seconds" (JSArr.mk0 60) p0 0
      let minutes ← partToArray "minutes" (JSArr.mk0 60) p1 0
      let hours ← partToArray "hours" (JSArr.mk0 24) p2 0
      let days ← partToArray "days" (JSArr.mk0 31) p3 (-1)
      let months ← partToArray "months" (JSArr.mk0 12) p4 (-1)
      let daysOfWeek ← partToArray "daysOfWeek" (JSArr.mk0 8) p5 0
      let daysOfWeek := if daysOfWeek.read 7 then daysOfWeek.write 0 else daysOfWeek
      .ok ⟨seconds, minutes, hours, days, months, daysOfWeek⟩
  | _ =>
    raiseE ("invalid configuration format ('" ++ ofChars orig ++
      "'), exacly five space separated parts required.")

/-- `CronPattern.prototype.parse` on the raw pattern characters. -/
def parseList (orig : List Char) : Except String CronPattern :=
  parseParts orig (splitOnChar ' ' (collapseWs (jsTrim orig)))

/-- Compile a pattern string (`new CronPattern(pattern)`). -/
def CronPattern.parse (pattern : String) : Except String CronPattern :=
  parseList pattern.data

/-- `true` exactly on the error outcome of a compile or lookup. -/
def isErr {α : Type} : Except String α → Bool
  | .error _ => true
  | .ok _ => false

/-! ## Calendar arithmetic (the host `Date`, modelled as UTC) -/

def msPerDay : Int := 86400000

/-- Days since 1970-01-01 of the civil date `(y, m, d)`, `m` in 1..12. -/
def daysFromCivil (y m d : Int) : Int :=
  let y := if m ≤ 2 then y - 1 else y
  let era := y.fdiv 400
  let yoe := y - era * 400
  let mp := if 2 < m then m - 3 else m + 9
  let doy := (153 * mp + 2).fdiv 5 + d - 1
  let doe := yoe * 365 + yoe.fdiv 4 - yoe.fdiv 100 + doy
  era * 146097 + doe - 719468

/-- Civil date `(y, m, d)` of a day count since 1970-01-01. -/
def civilFromDays (z : Int) : Int × Int × Int :=
  let z := z + 719468
  let era := z.fdiv 146097
  let doe := z - era * 146097
  let yoe := (doe - doe.fdiv 1460 + doe.fdiv 36524 - doe.fdiv 146096).fdiv 365
  let y := yoe + era * 400
  let doy := doe - (365 * yoe + yoe.fdiv 4 - yoe.fdiv 100)
  let mp := (5 * doy + 2).fdiv 153
  let d := doy - (153 * mp + 2).fdiv 5 + 1
  let m := if mp < 10 then mp + 3 else mp - 9
  (if m ≤ 2 then y + 1 else y, m, d)

/-- `Date.prototype.getDay`: 0 = Sunday (1970-01-01 was a Thursday). -/
def jsGetDay (ts : Int) : Int := (ts.fdiv msPerDay + 4).emod 7

/-! ## CronDate (the broken-down time of the advancer) -/

/-- The mutable state of `CronDate`: month is 0-based, day 1-based. -/
structure CronDate where
  milliseconds : Int
  seconds : Int
  minutes : Int
  hours : Int
  days : Int
  months : Int
  years : Int
deriving DecidableEq, Repr, Inhabited

/-- `new CronDate(date)`: decompose a timestamp via the host getters. -/
def CronDate.ofDate (ts : Int) : CronDate :=
  let rem := ts.emod msPerDay
  let ymd := civilFromDays (ts.fdiv msPerDay)
  { milliseconds := rem.emod 1000
    seconds := (rem.fdiv 1000).emod 60
    minutes := (rem.fdiv 60000).emod 60
    hours := rem.fdiv 3600000
    days := ymd.2.2
    months := ymd.2.1 - 1
    years := ymd.1 }

/-- `CronDate.prototype.getDate`: `new Date(years, months, days, ...)`,
with the JS two-digit-year rule and month/day overflow normalization. -/
def CronDate.getDate (cd : CronDate) : Int :=
  let y := if 0 ≤ cd.years ∧ cd.years ≤ 99 then cd.years + 1900 else cd.years
  let ym := y + cd.months.fdiv 12
  let m0 := cd.months.emod 12
  let epochDays := daysFromCivil ym (m0 + 1) 1 + (cd.days - 1)
  epochDays * msPerDay + cd.hours * 3600000 + cd.minutes * 60000 +
    cd.seconds * 1000 + cd.milliseconds

/-! ## The advancer (`CronDate.prototype.increment`) -/

/-- The five entries of the `toDo` table, finest first. -/
inductive CField
  | seconds
  | minutes
  | hours
  | days
  | months
deriving DecidableEq, Repr

/-- The pattern array consulted for a field. -/
def CField.arr (p : CronPattern) : CField → JSArr
  | .seconds => p.seconds
  | .minutes => p.minutes
  | .hours => p.hours
  | .days => p.days
  | .months => p.months

/-- The index offset of a field (third column of `toDo`). -/
def CField.off : CField → Int
  | .days => -1
  | _ => 0

/-- Read the field's current value from the state. -/
def CField.get (cd : CronDate) : CField → Int
  | .seconds => cd.seconds
  | .minutes => cd.minutes
  | .hours => cd.hours
  | .days => cd.days
  | .months => cd.months

/-- Write the field's value into the state. -/
def CField.set (f : CField) (cd : CronDate) (v : Int) : CronDate :=
  match f with
  | .seconds => { cd with seconds := v }
  | .minutes => { cd with minutes := v }
  | .hours => { cd with hours := v }
  | .days => { cd with days := v }
  | .months => { cd with months := v }

/-- Increment the next-coarser member (second column of `toDo`). -/
def CField.bumpCoarser (f : CField) (cd : CronDate) : CronDate :=
  match f with
  | .seconds => { cd with minutes := cd.minutes + 1 }
  | .minutes => { cd with hours := cd.hours + 1 }
  | .hours => { cd with days := cd.days + 1 }
  | .days => { cd with months := cd.months + 1 }
  | .months => { cd with years := cd.years + 1 }

/-- The scan `for(i=startPos; i<pattern[target].length; i++)`, with the
iteration count made explicit. -/
def findFromAux (a : JSArr) : Int → Nat → Option Int
  | _, 0 => none
  | i, k + 1 => if a.read i then some i else findFromAux a (i + 1) k

def findFrom (a : JSArr) (i : Int) : Option Int :=
  findFromAux a i ((a.elems.length - i).toNat)

/-- `findNext`: the found value `i - offset`, or `none` when the loop
falls through. -/
def findNext (p : CronPattern) (st : CronDate) (f : CField) (override : Bool) :
    Option Int :=
  let startPos := (if override then 0 else f.get st) + f.off
  (findFrom (f.arr p) startPos).map (fun i => i - f.off)

/-- `toDo[doing][0]` as a field (the loop index 0..4). -/
def fieldOf : Nat → CField
  | 0 => .seconds
  | 1 => .minutes
  | 2 => .hours
  | 3 => .days
  | _ => .months

/-- One step of the reset loop: `findNext(..., override 0)`, leaving the
member unchanged when nothing is found. -/
def applyReset (p : CronPattern) (st : CronDate) (lvl : Nat) : CronDate :=
  match findNext p st (fieldOf lvl) true with
  | some v => (fieldOf lvl).set st v
  | none => st

/-- The reverse reset loop `while(doing >= 0) { findNext(...override); doing-- }`. -/
def resetDown (p : CronPattern) (st : CronDate) : Nat → CronDate
  | 0 => applyReset p st 0
  | l + 1 => resetDown p (applyReset p st (l + 1)) l

/-- The main `while(doing < 5)` cascade, with fuel: the source has no
bound, so `none` models a loop that never exits. -/
def incLoop (p : CronPattern) : Nat → Nat → CronDate → Option CronDate
  | 0, _, _ => none
  | fuel + 1, doing, st =>
    if doing < 5 then
      match findNext p st (fieldOf doing) false with
      | some v => incLoop p fuel (doing + 1) ((fieldOf doing).set st v)
      | none =>
        incLoop p fuel 0 (resetDown p ((fieldOf doing).bumpCoarser st) doing)
    else some st

/-- The trailing weekday loop
`while(!pattern.daysOfWeek[this.getDate().getDay()]) this.days += 1`. -/
def dowLoop (p : CronPattern) : Nat → CronDate → Option CronDate
  | 0, _ => none
  | fuel + 1, st =>
    if p.daysOfWeek.read (jsGetDay st.getDate) then some st
    else dowLoop p fuel { st with days := st.days + 1 }

/-- `CronDate.prototype.increment`. -/
def CronDate.increment (st : CronDate) (p : CronPattern) (fuel : Nat) :
    Option CronDate :=
  let st := { st with seconds := st.seconds + 1, milliseconds := 0 }
  match incLoop p fuel 0 st with
  | none => none
  | some st => dowLoop p fuel st

/-! ## The Cron schedule layer -/

/-- Options after `validateOpts` (dates are timestamps; `none` = unset). -/
structure CronOptions where
  startAt : Option Int := none
  stopAt : Option Int := none
  maxRuns : Option Int := none
  kill : Bool := false
deriving DecidableEq, Repr, Inhabited

/-- Raw options: a present date input carries `some ts`, or `none` when the
host cannot parse it as a date. -/
structure CronOptionsIn where
  startAt : Option (Option Int) := none
  stopAt : Option (Option Int) := none
  maxRuns : Option Int := none
  kill : Bool := false
deriving DecidableEq, Repr, Inhabited

/-- `Cron.prototype.validateOpts`: stores `startAt` one millisecond early,
raises on unparseable dates. -/
def Cron.validateOpts (o : CronOptionsIn) : Except String CronOptions :=
  match o.startAt with
  | some none => raiseE "Provided value for startAt could not be parsed as date."
  | some (some t) =>
    match o.stopAt with
    | some none => raiseE "Provided value for stopAt could not be parsed as date."
    | some (some u) => .ok ⟨some (t - 1), some u, o.maxRuns, o.kill⟩
    | none => .ok ⟨some (t - 1), none, o.maxRuns, o.kill⟩
  | none =>
    match o.stopAt with
    | some none => raiseE "Provided value for stopAt could not be parsed as date."
    | some (some u) => .ok ⟨none, some u, o.maxRuns, o.kill⟩
    | none => .ok ⟨none, none, o.maxRuns, o.kill⟩

/-- `Cron.prototype._next`: clamp up to `startAt`, check stop conditions,
advance, and apply `stopAt`. -/
def Cron._next (pat : CronPattern) (opts : CronOptions) (fuel : Nat)
    (prev : Int) : Option Int :=
  let prev := match opts.startAt with
    | some s => if prev < s then s else prev
    | none => prev
  if (match opts.maxRuns with | some n => n ≤ 0 | none => false) || opts.kill then
    none
  else
    match (CronDate.ofDate prev).increment pat fuel with
    | none => none
    | some cd =>
      let nextRun := cd.getDate
      match opts.stopAt with
      | some s => if s ≤ nextRun then none else some nextRun
      | none => some nextRun

/-- `Cron.prototype.next`: `_next` with milliseconds stripped. -/
def Cron.next (pat : CronPattern) (opts : CronOptions) (fuel : Nat)
    (prev : Int) : Option Int :=
  (Cron._next pat opts fuel prev).map (fun t => t - t.emod 1000)

/-! ## The `Cron` entry point (constructor vs plain call) -/

/-- The dynamic second argument of `Cron(pattern, options, fn)`: absent,
an options object, or a function. -/
inductive OptArg (Fn : Type)
  | noArg
  | opts (o : CronOptionsIn)
  | fn (f : Fn)

/-- What the `Cron` call evaluates to: a raised compile error, the
schedule object itself, or the job returned by `this.schedule(...)`
(recorded with the arguments the source hands it). -/
inductive CronRet (Fn : Type)
  | error (msg : String)
  | schedule (pat : CronPattern) (opts : CronOptions)
  | job (pat : CronPattern) (opts : CronOptions) (f : Fn)

/-- The constructor body (source lines after the `instanceof` guard):
compile the pattern, shuffle an options-position function into `fn`,
validate options, and return self or a scheduled job. -/
def cronBody {Fn : Type} (pattern : String) (arg2 : OptArg Fn) (fn : Option Fn) :
    CronRet Fn :=
  match CronPattern.parse pattern with
  | .error e => .error e
  | .ok pat =>
    let shuffled : CronOptionsIn × Option Fn :=
      match arg2 with
      | .fn f => ({}, some f)
      | .opts o => (o, fn)
      | .noArg => ({}, fn)
    match Cron.validateOpts shuffled.1 with
    | .error e => .error e
    | .ok opts =>
      match shuffled.2 with
      | none => .schedule pat opts
      | some f => .job pat opts f

/-- `new Cron(pattern, options, fn)`: a fresh instance runs the body. -/
def cronNew {Fn : Type} (pattern : String) (arg2 : OptArg Fn) (fn : Option Fn) :
    CronRet Fn :=
  cronBody pattern arg2 fn

/-- The `Cron` function: when `this` is not already a `Cron` instance
(plain call, `newBound = false`), the source returns
`new Cron(pattern, options, fn)`. -/
def CronEntry {Fn : Type} (newBound : Bool) (pattern : String) (arg2 : OptArg Fn)
    (fn : Option Fn) : CronRet Fn :=
  if newBound then cronBody pattern arg2 fn
  else cronNew pattern arg2 fn

/-! ## Compiled instances used by the concrete theorems -/

/-- The compiled form of `* * * 31 2 *` (day-of-month 31, February). -/
def patFeb31 : CronPattern :=
  match CronPattern.parse "* * * 31 2 *" with
  | .ok p => p
  | .error _ => default

/-- The compiled form of `* * * 1-1 * *` (day-of-month range `1-1`). -/
def patDay11 : CronPattern :=
  match CronPattern.parse "* * * 1-1 * *" with
  | .ok p => p
  | .error _ => default

/-- The compiled form of `* * * 2-3 * *` (day-of-month range `2-3`). -/
def patRange23 : CronPattern :=
  match CronPattern.parse "* * * 2-3 * *" with
  | .ok p => p
  | .error _ => default

/-- The compiled form of `, * * * * *` (an empty seconds atom list). -/
def patComma : CronPattern :=
  match CronPattern.parse ", * * * * *" with
  | .ok p => p
  | .error _ => default

/-- The compiled form of the full wildcard expression. -/
def patAll : CronPattern :=
  match CronPattern.parse "* * * * * *" with
  | .ok p => p
  | .error _ => default

/-- The compiled form of `0 0 12 1 * *` (noon on the 1st of each month). -/
def patNoon : CronPattern :=
  match CronPattern.parse "0 0 12 1 * *" with
  | .ok p => p
  | .error _ => default

/-! ## Helper lemmas -/

theorem getD_replicate_false : ∀ (n k : Nat),
    (List.replicate n false).getD k false = false
  | 0, _ => rfl
  | _ + 1, 0 => rfl
  | n + 1, k + 1 => getD_replicate_false n k

theorem mk0_read_false (n : Nat) (i : Int) : (JSArr.mk0 n).read i = false := by
  unfold JSArr.read JSArr.mk0
  by_cases h0 : (0 : Int) ≤ i
  · simp only [if_pos h0]
    exact getD_replicate_false n i.toNat
  · simp only [if_neg h0]
    by_cases h1 : i = -1
    · simp only [if_pos h1]
    · simp only [if_neg h1]

theorem findFromAux_mk0_none (n : Nat) : ∀ (i : Int) (k : Nat),
    findFromAux (JSArr.mk0 n) i k = none
  | _, 0 => rfl
  | i, k + 1 => by
    rw [findFromAux, mk0_read_false]
    simp only [Bool.false_eq_true, if_false]
    exact findFromAux_mk0_none n (i + 1) k

theorem dropWhile_noSpace (l : List Char) (h : ∀ c ∈ l, isJsSpace c = false) :
    l.dropWhile isJsSpace = l := by
  cases l with
  | nil => rfl
  | cons a t =>
    rw [List.dropWhile_cons, h a (List.mem_cons_self a t)]
    simp

theorem jsTrim_noSpace (l : List Char) (h : ∀ c ∈ l, isJsSpace c = false) :
    jsTrim l = l := by
  unfold jsTrim
  rw [dropWhile_noSpace l h,
    dropWhile_noSpace l.reverse (fun c hc => h c (List.mem_reverse.mp hc)),
    List.reverse_reverse]

theorem collapseWs_noSpace : ∀ (l : List Char),
    (∀ c ∈ l, isJsSpace c = false) → collapseWs l = l
  | [], _ => rfl
  | [c], h => by
    simp only [collapseWs, h c (List.mem_singleton.mpr rfl)]
    simp
  | c1 :: c2 :: rest, h => by
    have h1 := h c1 (by simp)
    have h2 := h c2 (by simp)
    have ih := collapseWs_noSpace (c2 :: rest) (fun c hc => h c (by simp [List.mem_cons] at hc ⊢; tauto))
    simp only [collapseWs, h1, h2, Bool.false_and, Bool.false_eq_true, if_false, ih]

theorem splitOnChar_noSep (sep : Char) : ∀ (l : List Char), sep ∉ l →
    splitOnChar sep l = [l]
  | [], _ => rfl
  | c :: rest, h => by
    have hc : ¬(c = sep) := fun e => h (e ▸ List.mem_cons_self c rest)
    have ih := splitOnChar_noSep sep rest (fun hm => h (List.mem_cons_of_mem c hm))
    simp only [splitOnChar, hc, if_false, ih]

/-! ## Claim theorems -/

/-- C1: the spec says `* * * 31 2 *` (day 31 in February) makes `next`
return none for every reference instant.  The code instead builds
`Date(y, 1, 31)`, which the host normalizes into early March: from
2022-01-01T00:00:00 it returns 2022-03-03T00:00:01, an instant that
matches neither the day-31 nor the February constraint. -/
theorem feb31_next_returns_march_instant :
    CronPattern.parse "* * * 31 2 *" = .ok patFeb31 ∧
    Cron.next patFeb31 {} 100 1640995200000 = some 1646265601000 := by
  exact ⟨rfl, by decide⟩

/-- C2, counterexample: in the default configuration the expression
`0 0 0 1 11 4` (day-of-month 1, month 11, day-of-week 4) does not
compile; there is no legacy mode that accepts it. -/
theorem dow_dom_combination_rejected_concrete :
    isErr (CronPattern.parse "0 0 0 1 11 4") = true := by decide

/-- C2, amended: whenever the day-of-week entry is not `*` and the month
or day-of-month entry is not `*`, compilation fails, regardless of any
option (the compiler takes no options at all). -/
theorem dow_dom_combination_always_rejected (orig p0 p1 p2 p3 p4 p5 : List Char)
    (h5 : p5 ≠ ['*']) (h34 : p4 ≠ ['*'] ∨ p3 ≠ ['*']) :
    isErr (parseParts orig [p0, p1, p2, p3, p4, p5]) = true := by
  cases hc : checkLegalList 1 [p0, p1, p2, p3, p4, p5] with
  | error e => simp only [parseParts, hc, isErr]
  | ok u =>
    simp only [parseParts, hc]
    rw [if_pos ⟨h5, h34⟩]
    rfl

/-- Witness for C2's amended theorem at the parts of `0 0 0 1 11 4`. -/
theorem dow_dom_combination_always_rejected_witness :
    isErr (parseParts "0 0 0 1 11 4".data
      ["0".data, "0".data, "0".data, "1".data, "11".data, "4".data]) = true :=
  dow_dom_combination_always_rejected _ _ _ _ _ _ _ (by decide) (Or.inl (by decide))

/-- C3: the spec says a range atom `N-M` marks exactly the values N..M.
For the day-of-month field the offset is applied twice: `2-3` marks the
days 1 and 2 and not the day 3. -/
theorem day_range_2_3_marks_days_1_2 :
    CronPattern.parse "* * * 2-3 * *" = .ok patRange23 ∧
    patRange23.days.read (2 - 1) = true ∧
    patRange23.days.read (3 - 1) = false ∧
    patRange23.days.read (1 - 1) = true := by
  exact ⟨rfl, by decide, by decide, by decide⟩

/-- C5: the spec says every compiled field set is non-empty, but the
day range `1-1` writes only at array index `-1` (a non-element property),
so `* * * 1-1 * *` compiles with an empty day-of-month element set. -/
theorem day_range_1_1_empty_day_set :
    CronPattern.parse "* * * 1-1 * *" = .ok patDay11 ∧
    patDay11.days.elems = List.replicate 31 false ∧
    patDay11.days.neg1 = true := by
  exact ⟨rfl, by decide, by decide⟩

/-- C6, counterexample: the alias `@yearly` does not compile at all (it is
a single token, so the six-field check rejects it). -/
theorem alias_yearly_rejected : isErr (CronPattern.parse "@yearly") = true := by
  decide

/-- C6, amended: every documented alias fails to compile, and so does any
other whitespace-free `@name` expression (a single token never passes the
six-field check). -/
theorem at_name_never_compiles :
    (isErr (CronPattern.parse "@yearly") = true ∧
     isErr (CronPattern.parse "@annually") = true ∧
     isErr (CronPattern.parse "@monthly") = true ∧
     isErr (CronPattern.parse "@weekly") = true ∧
     isErr (CronPattern.parse "@daily") = true ∧
     isErr (CronPattern.parse "@hourly") = true) ∧
    (∀ (name : List Char), (∀ c ∈ name, isJsSpace c = false) →
      isErr (parseList ('@' :: name)) = true) := by
  refine ⟨⟨by decide, by decide, by decide, by decide, by decide, by decide⟩, ?_⟩
  intro name h
  have hall : ∀ c ∈ ('@' :: name), isJsSpace c = false := by
    intro c hc
    rcases List.mem_cons.mp hc with rfl | hm
    · rfl
    · exact h c hm
  have hsp : ' ' ∉ ('@' :: name) := by
    intro hm
    have := hall ' ' hm
    simp [isJsSpace] at this
  unfold parseList
  rw [jsTrim_noSpace _ hall, collapseWs_noSpace _ hall, splitOnChar_noSep ' ' _ hsp]
  rfl

/-- Witness for C6's amended theorem at the name `reboot`. -/
theorem at_name_never_compiles_witness :
    isErr (parseList ('@' :: "reboot".data)) = true :=
  at_name_never_compiles.2 "reboot".data (by decide)

/-- C7, counterexample: the day-of-month field does not accept `L`; the
expression `0 0 0 L * *` from the spec's scenario does not even compile. -/
theorem l_atom_claim_false : isErr (CronPattern.parse "0 0 0 L * *") = true := by
  decide

/-- C7, amended: `L` is outside the legal character class of every field,
so `0 0 0 L * *` is rejected with an illegal-character error. -/
theorem l_atom_rejected_illegal_char :
    CronPattern.parse "0 0 0 L * *" =
      .error "Cron parser: configuration entry 4 (L) contains illegal characters." := by
  rfl

/-- C8: the spec says `next(r)` is none or strictly greater than r.  The
compiled `* * * 1-1 * *` accepts only the phantom day 0 (the last day of
the previous month), and from 2022-01-31T00:00:00 the advancer carries
into February, resets the day to 0, and `Date(2022, 1, 0)` normalizes
right back to 2022-01-31T00:00:00: `next` returns its own reference. -/
theorem next_can_return_reference_instant :
    CronPattern.parse "* * * 1-1 * *" = .ok patDay11 ∧
    Cron.next patDay11 {} 100 1643587200000 = some 1643587200000 := by
  exact ⟨rfl, by decide⟩

/-- `, * * * * *` compiles to a seconds array with no element set. -/
theorem patComma_seconds_empty : patComma.seconds = JSArr.mk0 60 := by decide

/-- With an empty seconds array, `findNext` on the seconds field never
finds anything, from any state, with or without override. -/
theorem findNext_patComma_seconds_none (st : CronDate) (b : Bool) :
    findNext patComma st .seconds b = none := by
  have h : CField.arr patComma .seconds = JSArr.mk0 60 := patComma_seconds_empty
  simp only [findNext, findFrom, h, findFromAux_mk0_none, Option.map_none']

/-- C4: the spec says the advancer terminates for every successfully
compiled pattern, capping year advancement and returning none.  The code
has no year cap at all, and the expression `, * * * * *` compiles (its
empty atoms parse as `NaN` writes that mark nothing) with an empty
seconds set, on which the cascade loop never exits: the model returns
none for every fuel, i.e. the source loops forever. -/
theorem comma_pattern_increment_diverges :
    CronPattern.parse ", * * * * *" = .ok patComma ∧
    (∀ (fuel : Nat) (st : CronDate), incLoop patComma fuel 0 st = none) ∧
    (∀ (fuel : Nat) (cd : CronDate), CronDate.increment cd patComma fuel = none) := by
  have hloop : ∀ (fuel : Nat) (st : CronDate), incLoop patComma fuel 0 st = none := by
    intro fuel
    induction fuel with
    | zero => intro st; rfl
    | succ n ih =>
      intro st
      simp only [incLoop, fieldOf, Nat.zero_lt_succ, if_pos, Nat.lt_irrefl,
        findNext_patComma_seconds_none]
      exact ih _
  refine ⟨rfl, hloop, ?_⟩
  intro fuel cd
  simp only [CronDate.increment, hloop]

/-- C9: `startAt` is stored as the supplied instant minus one
millisecond, and `next(from)` with `from` before the supplied instant
behaves exactly as `next` of the stored value; concretely, with
`startAt = 2022-01-01T12:00:00` and pattern `0 0 12 1 * *`, `next` from
2022-01-01T00:00:00 emits exactly the `startAt` instant. -/
theorem start_at_stored_minus_one_and_clamped :
    (∀ (g : Int) (mr : Option Int) (k : Bool),
      Cron.validateOpts ⟨some (some g), none, mr, k⟩ =
        .ok ⟨some (g - 1), none, mr, k⟩) ∧
    (∀ (pat : CronPattern) (opts : CronOptions) (fuel : Nat) (s f : Int),
      opts.startAt = some s → f < s + 1 →
      Cron.next pat opts fuel f = Cron.next pat opts fuel s) ∧
    Cron.next patNoon ⟨some (1641038400000 - 1), none, none, false⟩ 100
      1640995200000 = some 1641038400000 := by
  refine ⟨fun g mr k => rfl, ?_, by decide⟩
  intro pat opts fuel s f hs hf
  have hclamp : (if f < s then s else f) = s := by
    by_cases h : f < s
    · exact if_pos h
    · have hfs : f = s := by omega
      rw [if_neg h, hfs]
  simp only [Cron.next, Cron._next, hs]
  rw [hclamp, if_neg (lt_irrefl s)]

/-- Witness for C9: clamping at a concrete `startAt`. -/
theorem start_at_clamped_witness :
    Cron.next patAll ⟨some 999, none, none, false⟩ 50 0 =
      Cron.next patAll ⟨some 999, none, none, false⟩ 50 999 :=
  start_at_stored_minus_one_and_clamped.2.1 patAll
    ⟨some 999, none, none, false⟩ 50 999 0 rfl (by decide)

/-- C10: calling `Cron` as a plain function takes the `instanceof` guard
branch and returns `new Cron(pattern, options, fn)`, so the result agrees
with the constructor call on the same arguments. -/
theorem cron_call_without_new_matches_new {Fn : Type} (pattern : String)
    (arg2 : OptArg Fn) (fn : Option Fn) :
    CronEntry false pattern arg2 fn = CronEntry true pattern arg2 fn := rfl

end Croner
